import Mathlib

/-!
# Verification of the brighterscript Scope / XmlScope validation layer

Shallow embedding of `src/Scope.ts` (class `Scope`) and the `XmlScope`
subclass, together with the small slices of their collaborators
(`XmlFile`, `BrsFile`, `util`) that the Scope code calls into.

Conventions used throughout:
* JavaScript objects used as string-keyed dictionaries (insertion ordered)
  are modelled as association lists `List (String × α)`; `obj[k] = v`
  replaces in place when the key is present and appends otherwise,
  `delete obj[k]` removes the entry, and `for (k in obj)` iterates in
  list order.
* Truthiness of an optional string field (`file.componentName`,
  `xmlFile.parentName`) is modelled as `≠ ""` (both `undefined` and the
  empty string are falsy in JS).
* `Range` / `Position` are the vscode-languageserver value types.
-/

set_option autoImplicit false

namespace BrighterScript

/-- vscode-languageserver `Position`: zero-based line / character. -/
structure Pos where
  line : Nat
  character : Nat
deriving DecidableEq, Repr

/-- vscode-languageserver `Range` (field `end` is a Lean keyword, so the
model names it `endPos`). -/
structure Rng where
  start : Pos
  endPos : Pos
deriving DecidableEq, Repr

/-- `Range.create(l1, c1, l2, c2)`. -/
def Rng.create (l1 c1 l2 c2 : Nat) : Rng :=
  ⟨⟨l1, c1⟩, ⟨l2, c2⟩⟩

/-- JS `string.toLowerCase()`, modelled character-wise (`Char.toLower`;
the identifiers and paths involved are ASCII, where this agrees with
JS). -/
def strToLower (s : String) : String :=
  ⟨s.data.map Char.toLower⟩

/-- Splitting a character list at a separator character; `[[]]` on the
empty list, matching JS `"".split(sep) == [""]`. -/
def splitChars (sep : Char) : List Char → List (List Char)
  | [] => [[]]
  | c :: cs =>
    let rest := splitChars sep cs
    if c = sep then
      [] :: rest
    else
      match rest with
      | r :: rs => (c :: r) :: rs
      | [] => [[c]]

/-- JS `string.split(sep)` for a one-character separator. -/
def jsSplit (s : String) (sep : Char) : List String :=
  (splitChars sep s.data).map (fun cs => ⟨cs⟩)

/-! ## Association-list primitives (JS object-as-dictionary semantics) -/

/-- `obj[k]` read: first entry with the given key. -/
def assocGet {α : Type} (l : List (String × α)) (k : String) : Option α :=
  (l.find? (fun e => e.1 == k)).map (·.2)

/-- `k in obj`. -/
def assocHas {α : Type} (l : List (String × α)) (k : String) : Bool :=
  (assocGet l k).isSome

/-- `obj[k] = v`: replace in place when present, append otherwise. -/
def assocSet {α : Type} (l : List (String × α)) (k : String) (v : α) :
    List (String × α) :=
  match l with
  | [] => [(k, v)]
  | e :: rest => if e.1 == k then (k, v) :: rest else e :: assocSet rest k v

/-- `delete obj[k]`: drop the (first) entry with the given key. -/
def assocErase {α : Type} (l : List (String × α)) (k : String) :
    List (String × α) :=
  match l with
  | [] => []
  | e :: rest => if e.1 == k then rest else e :: assocErase rest k

/-- In-place update of an existing entry (mutation of the object stored at
`obj[k]` through the reference held by the dictionary). -/
def assocUpdate {α : Type} (l : List (String × α)) (k : String) (f : α → α) :
    List (String × α) :=
  match l with
  | [] => []
  | e :: rest =>
    if e.1 == k then (e.1, f e.2) :: rest else e :: assocUpdate rest k f

/-! ## XmlScope parent resolution (`src/unnamed/part_001`, C10) -/

/-- A file held by the `Program`: either a code file (`BrsFile`) or a
component-descriptor file (`XmlFile`).  Only the fields read by
`XmlScope.addParentIfMatch` / `XmlScope.onProgramFileRemove` are kept:
the `instanceof XmlFile` discrimination and `componentName`. -/
inductive ProgFile where
  | brsFile (pathAbsolute : String)
  | xmlFile (componentName : String)
deriving DecidableEq, Repr

/-- The slice of an `XmlScope`'s state that its parent-resolution handlers
read and write: the owned descriptor's `parentName` and resolved
`parent` pointer, and the scope's `isValidated` flag. -/
structure XmlScopeState where
  /-- `this.xmlFile.parentName` (the `extends` attribute; `""` = absent). -/
  parentName : String
  /-- `this.xmlFile.parent` (resolved parent descriptor; `attachParent`
  and `detachParent` write this pointer). -/
  parent : Option ProgFile
  /-- `this.isValidated`. -/
  isValidated : Bool
deriving DecidableEq, Repr

/-- `XmlScope.addParentIfMatch(file)`: attach the incoming file as the
descriptor's parent when (1) the descriptor has no parent yet, (2) it
wants one (`parentName` truthy), (3) the incoming file is an `XmlFile`,
and (4) `file.componentName === this.xmlFile.parentName` — a
case-sensitive string comparison. -/
def addParentIfMatch (st : XmlScopeState) (file : ProgFile) : XmlScopeState :=
  match file with
  | .xmlFile componentName =>
    if st.parent = none ∧ st.parentName ≠ "" ∧ componentName = st.parentName then
      { st with isValidated := false, parent := some file }
    else
      st
  | .brsFile _ => st

/-- `XmlScope.onProgramFileRemove(file)`: detach the descriptor's parent
when the removed file is an `XmlFile` with a truthy `componentName`,
this descriptor has a truthy `parentName`, and
`file.componentName.toLowerCase() === this.xmlFile.parentName.toLowerCase()`
— a case-insensitive comparison.  (The handler also calls the scope's
own `detachParent()`, which re-points `parentScope` at the platform
scope; that pointer is outside this state slice.) -/
def onProgramFileRemove (st : XmlScopeState) (file : ProgFile) : XmlScopeState :=
  match file with
  | .xmlFile componentName =>
    if componentName ≠ "" ∧ st.parentName ≠ "" ∧
        strToLower componentName = strToLower st.parentName then
      { st with isValidated := false, parent := none }
    else
      st
  | .brsFile _ => st

/-! ## XmlScope duplicate ancestor script imports (`src/unnamed/part_001`, C8) -/

/-- A `<script>` tag import of a descriptor file (`FileReference` restricted
to the fields `diagnosticDetectDuplicateAncestorScriptImports` reads on
the descriptor's own imports: `pkgPath` and `filePathRange`; the
`sourceFile` back-reference of an own import is the descriptor itself). -/
structure ScriptImport where
  pkgPath : String
  filePathRange : Rng
deriving DecidableEq, Repr

/-- A descriptor file (`XmlFile`) restricted to the fields the
duplicate-ancestor-script-import check reads: the component name, the
script-tag imports, and the resolved parent chain. -/
inductive MXmlFile where
  | mk (componentName : String) (scriptTagImports : List ScriptImport)
      (parent : Option MXmlFile)

def MXmlFile.componentName : MXmlFile → String
  | .mk n _ _ => n

def MXmlFile.scriptTagImports : MXmlFile → List ScriptImport
  | .mk _ si _ => si

def MXmlFile.parent : MXmlFile → Option MXmlFile
  | .mk _ _ p => p

/-- An element of `getAncestorScriptTagImports()`: an ancestor's
`FileReference`, of which the check reads `pkgPath` and
`(sourceFile as XmlFile).componentName`; `sourceFile` is projected to
that component name. -/
structure AncestorImport where
  pkgPath : String
  sourceComponentName : String
deriving DecidableEq, Repr

/-- Modelled from the spec: `XmlFile.getAncestorScriptTagImports()`
(`XmlFile` is not part of the sources) — "concatenated script imports of
all transitive resolved parents, parents first", each import carrying its
source descriptor as back-reference. -/
def MXmlFile.getAncestorScriptTagImports : MXmlFile → List AncestorImport
  | .mk _ _ none => []
  | .mk _ _ (some p) =>
    p.scriptTagImports.map (fun si => ⟨si.pkgPath, p.componentName⟩) ++
      p.getAncestorScriptTagImports

/-- The `unnecessaryScriptImportInChildFromParent` warning pushed by the
check: its range and the ancestor component name in its message. -/
structure DupImportDiag where
  range : Rng
  ancestorComponentName : String
deriving DecidableEq, Repr

/-- `XmlScope.diagnosticDetectDuplicateAncestorScriptImports()`: when the
descriptor has a parent, build a pkgPath lookup of the ancestor imports
keeping the **first** occurrence of each path, then warn once for every
own script-tag import whose pkgPath hits the lookup, naming the
component of the retained (first, hence nearest — ancestors are listed
parents-first) ancestor occurrence. -/
def diagnosticDetectDuplicateAncestorScriptImports (xmlFile : MXmlFile) :
    List DupImportDiag :=
  if xmlFile.parent.isSome then
    let parentScriptImports := xmlFile.getAncestorScriptTagImports
    let lookup : List (String × AncestorImport) :=
      parentScriptImports.foldl
        (fun lk imp =>
          if assocHas lk imp.pkgPath then lk else lk ++ [(imp.pkgPath, imp)])
        []
    xmlFile.scriptTagImports.foldl
      (fun ds scriptImport =>
        match assocGet lookup scriptImport.pkgPath with
        | some ancestorScriptImport =>
          ds ++ [⟨scriptImport.filePathRange,
                  ancestorScriptImport.sourceComponentName⟩]
        | none => ds)
      []
  else
    []

/-! ## Scope data model (`src/Scope.ts`)

The parser-produced file contents (`BrsFile` / `XmlFile` members read by
`Scope`) are captured structurally; back-references from a callable to
its file are projected to the two file fields the Scope code reads
(`file.pathAbsolute`, `file.pkgPath`). -/

/-- One parameter of a callable's signature. -/
structure Param where
  name : String
  isOptional : Bool
deriving DecidableEq, Repr

/-- A callable (function declaration) exposed by a file
(`file.callables`).  `filePathAbsolute` / `filePkgPath` stand for the
`callable.file` back-reference (`.pathAbsolute` and `.pkgPath` are the
only fields of it the Scope code reads, besides using the file itself as
the diagnostic's `file`, identified here by its absolute path). -/
structure Callable where
  name : String
  params : List Param
  nameRange : Rng
  filePathAbsolute : String
  filePkgPath : String
deriving DecidableEq, Repr

/-- A function-call site collected during parse (`file.functionCalls`).
`args` is the list of argument expressions, of which only the count is
read; each argument is abstracted to `Unit`. -/
structure FunctionCall where
  name : String
  args : List Unit
  nameRange : Rng
deriving DecidableEq, Repr

/-- A local variable declaration of a function scope.  `isFunctionType`
models `varDeclaration.type instanceof FunctionType`. -/
structure VarDecl where
  name : String
  isFunctionType : Bool
  nameRange : Rng
deriving DecidableEq, Repr

/-- A function scope of a code file (`file.functionScopes`), with the
source range used by `getFunctionScopeAtPosition`. -/
structure FunctionScope where
  range : Rng
  variableDeclarations : List VarDecl
deriving DecidableEq, Repr

/-- A statement inside a namespace body: the Scope code only
discriminates `ClassStatement` / `FunctionStatement` (reading
`statement.name.text`) from everything else. -/
inductive Stmt where
  | classStmt (nameText : String)
  | functionStmt (nameText : String)
  | otherStmt (tag : Nat)
deriving DecidableEq, Repr

/-- A `NamespaceStatement`: `name` is
`namespace.nameExpression.getName(ParseMode.BrighterScript)` (the dotted
path as written), `body` the statements of the namespace body. -/
structure NamespaceStmt where
  name : String
  body : List Stmt
deriving DecidableEq, Repr

/-- A `ClassStatement` as read by `buildClassLookup`: its fully qualified
name `cls.getName(ParseMode.BrighterScript)`. -/
structure ClassStmt where
  fullName : String
deriving DecidableEq, Repr

/-- `NamespaceContainer` (Scope.ts).  In the source, `namespaces` maps a
lower-cased last part to a *reference* to the child container; every such
reference targets an entry of the enclosing `namespaceLookup`, so the
model stores the child's lookup key (its lower-cased full name) instead
of the object. -/
structure NamespaceContainer where
  fullName : String
  lastPartName : String
  /-- lower last part ↦ lookup key of the child container. -/
  namespaces : List (String × String)
  /-- lower class name ↦ `ClassStatement` name text. -/
  classStatements : List (String × String)
  /-- lower function name ↦ `FunctionStatement` name text. -/
  functionStatements : List (String × String)
  statements : List Stmt
deriving DecidableEq, Repr

/-- The diagnostics `Scope.ts` pushes (constructors named after the
`DiagnosticMessages` factory used), plus an opaque constructor for
diagnostics owned by files and for the class validator's output. -/
inductive Diag where
  | duplicateFunctionImplementation (callableName : String) (scopeName : String)
      (range : Rng) (filePathAbsolute : String)
  | overridesAncestorFunction (callableName : String) (currentScopeName : String)
      (parentFilePath : String) (parentScopeName : String)
      (range : Rng) (filePathAbsolute : String)
  | mismatchArgumentCount (expectedText : String) (actualCount : Nat)
      (range : Rng) (filePathAbsolute : String)
  | callToUnknownFunction (name : String) (scopeName : String)
      (range : Rng) (filePathAbsolute : String)
  | localVarFunctionShadowsParentFunction (scopeKind : String)
      (range : Rng) (filePathAbsolute : String)
  | localVarShadowedByScopedFunction (range : Rng) (filePathAbsolute : String)
  | scopeFunctionShadowedByBuiltInFunction (range : Rng) (filePathAbsolute : String)
  | externalDiag (tag : Nat)
deriving DecidableEq, Repr

/-- A member file of a scope: the union of the `BrsFile` / `XmlFile`
fields that `Scope` reads.  `fileDiagnostics` is the result of the
file's own `getDiagnostics()`. -/
structure MFile where
  pathAbsolute : String
  pkgPath : String
  callables : List Callable
  functionCalls : List FunctionCall
  functionScopes : List FunctionScope
  namespaceStatements : List NamespaceStmt
  classStatements : List ClassStmt
  fileDiagnostics : List Diag
deriving DecidableEq, Repr

/-- The state of a `Scope` object, with the parent chain inlined
(`parentScope` is an object reference in the source; here the parent's
state is carried as a subterm).  `files` holds the `ScopeFile` wrappers
keyed by `file.pathAbsolute`. -/
inductive SScope where
  | mk (name : String) (files : List (String × MFile))
      (diagnostics : List Diag) (_isValidated : Bool)
      (_namespaceLookup : Option (List (String × NamespaceContainer)))
      (_classLookup : Option (List (String × String)))
      (parentScope : Option SScope)

namespace SScope

def name : SScope → String
  | .mk n _ _ _ _ _ _ => n

def files : SScope → List (String × MFile)
  | .mk _ f _ _ _ _ _ => f

def diagnostics : SScope → List Diag
  | .mk _ _ d _ _ _ _ => d

def isValidatedGet : SScope → Bool
  | .mk _ _ _ v _ _ _ => v

def namespaceLookupCache : SScope → Option (List (String × NamespaceContainer))
  | .mk _ _ _ _ nl _ _ => nl

def classLookupCache : SScope → Option (List (String × String))
  | .mk _ _ _ _ _ cl _ => cl

def parentScope : SScope → Option SScope
  | .mk _ _ _ _ _ _ p => p

/-- Value equality on scope states, standing in for the JS reference
equalities `container.scope === this` / `=== this.program.platformScope`
(each scope object of a program has distinct state — at least its
registry name — and an ancestor is always distinct from a descendant, so
the two notions agree on the comparisons the source performs). -/
def beq : SScope → SScope → Bool
  | .mk n1 f1 d1 v1 nl1 cl1 p1, .mk n2 f2 d2 v2 nl2 cl2 p2 =>
    n1 == n2 && f1 == f2 && d1 == d2 && v1 == v2 && nl1 == nl2 && cl1 == cl2 &&
      match p1, p2 with
      | none, none => true
      | some a, some b => beq a b
      | _, _ => false

instance : BEq SScope := ⟨beq⟩

/-- `public set isValidated(value)`: stores the flag and unconditionally
deletes the cached `_namespaceLookup` and `_classLookup`. -/
def setIsValidated : SScope → Bool → SScope
  | .mk n f d _ _ _ p, value => .mk n f d value none none p

end SScope

/-- The only event a `Scope` emits (`protected emit(name: 'invalidated')`). -/
inductive ScopeEvent where
  | invalidated
deriving DecidableEq, Repr

namespace SScope

def withFiles : SScope → List (String × MFile) → SScope
  | .mk n _ d v nl cl p, f => .mk n f d v nl cl p

def withDiagnostics : SScope → List Diag → SScope
  | .mk n f _ v nl cl p, d => .mk n f d v nl cl p

def withParentScope : SScope → Option SScope → SScope
  | .mk n f d v nl cl _, p => .mk n f d v nl cl p

/-- `Scope.getFile(filePath)` (the `standardizePath` template tag from
`util` — not among the sources — is the identity on the already
standardized paths modelled here). -/
def getFile (s : SScope) (filePath : String) : Option MFile :=
  assocGet s.files filePath

/-- `Scope.removeFile(file)`: flips `isValidated` to false (through the
setter), exits silently when the file is absent, otherwise deletes the
entry and emits `'invalidated'`.  Returns the new state and the events
emitted. -/
def removeFile (s : SScope) (file : MFile) : SScope × List ScopeEvent :=
  let s := s.setIsValidated false
  match s.getFile file.pathAbsolute with
  | none => (s, [])
  | some _ =>
    (s.withFiles (assocErase s.files file.pathAbsolute), [.invalidated])

/-- `Scope.addOrReplaceFile(file)`: flips `isValidated` to false, removes
the previous entry first when the file is already loaded (which emits
`'invalidated'` from `removeFile`), then stores the new `ScopeFile`.
Returns the new state and the events emitted. -/
def addOrReplaceFile (s : SScope) (file : MFile) : SScope × List ScopeEvent :=
  let s := s.setIsValidated false
  let (s, events) :=
    if assocHas s.files file.pathAbsolute then s.removeFile file else (s, [])
  (s.withFiles (assocSet s.files file.pathAbsolute file), events)

/-- `Scope.hasFile` (path form). -/
def hasFile (s : SScope) (pathAbsolute : String) : Bool :=
  assocHas s.files pathAbsolute

/-- `Scope.getDiagnostics()`: own scope-level diagnostics first, then
every member file's `getDiagnostics()`, filtered through
`util.diagnosticIsSuppressed` — `util` is not among the sources, so the
suppression predicate (comment-flag matching) is taken as a parameter. -/
def getDiagnostics (isSuppressed : Diag → Bool) (s : SScope) : List Diag :=
  let diagnosticLists := s.diagnostics :: s.files.map (fun kv => kv.2.fileDiagnostics)
  let allDiagnostics := diagnosticLists.flatten
  allDiagnostics.filter (fun x => !isSuppressed x)

end SScope

/-- `CallableContainer`: a callable paired with the scope that
contributed it (the field holds the scope's state; see `SScope.beq`). -/
structure CallableContainer where
  callable : Callable
  scope : SScope

instance : BEq CallableContainer :=
  ⟨fun a b => a.callable == b.callable && a.scope == b.scope⟩

namespace SScope

/-- `Scope.getOwnCallables()`: callables of the member files, each tagged
with `scope: this`. -/
def getOwnCallables (s : SScope) : List CallableContainer :=
  s.files.flatMap (fun kv => kv.2.callables.map (fun c => ⟨c, s⟩))

/-- `Scope.getAllCallables()`: own callables first, then the parent's,
recursively. -/
def getAllCallables : SScope → List CallableContainer
  | s@(.mk _ _ _ _ _ _ (some p)) => s.getOwnCallables ++ p.getAllCallables
  | s@(.mk _ _ _ _ _ _ none) => s.getOwnCallables

end SScope

/-- The sort comparator of `Scope.validate`: by the callable's file path,
then by the callable's name (`localeCompare` modelled as lexicographic
string order). -/
def callableLe (a b : CallableContainer) : Bool :=
  if a.callable.filePathAbsolute ≠ b.callable.filePathAbsolute then
    a.callable.filePathAbsolute ≤ b.callable.filePathAbsolute
  else
    a.callable.name ≤ b.callable.name

/-- Stable insertion of one element into a list sorted by `le`. -/
def insertLe {α : Type} (le : α → α → Bool) (x : α) : List α → List α
  | [] => [x]
  | y :: ys => if le x y ∧ ¬ le y x then x :: y :: ys else y :: insertLe le x ys

/-- Stable sort by a boolean comparator (`Array.prototype.sort` with a
consistent comparator; ES2019 sort is stable). -/
def sortByLe {α : Type} (le : α → α → Bool) : List α → List α
  | [] => []
  | x :: xs => insertLe le x (sortByLe le xs)

/-- Modelled from the spec: `util.getCallableContainersByLowerName`
(`util` is not among the sources) — "bucket by lower-cased name into a
map name → list"; keys appear in first-occurrence order, each bucket in
input order. -/
def getCallableContainersByLowerName (callables : List CallableContainer) :
    List (String × List CallableContainer) :=
  callables.foldl
    (fun m c =>
      let lowerName := strToLower c.callable.name
      match assocGet m lowerName with
      | some bucket => assocSet m lowerName (bucket ++ [c])
      | none => m ++ [(lowerName, [c])])
    []

/-! ## `Scope.diagnosticFindDuplicateFunctionDeclarations` -/

/-- The own-scope partition of a bucket: containers that are not from the
platform scope and whose scope is `self` (the single partition loop of
the source pushes each container into exactly one of four arrays;
order-preserving filters reproduce those arrays). -/
def ownCallablesOf (platformScope self : SScope) (cs : List CallableContainer) :
    List CallableContainer :=
  cs.filter (fun c => !(c.scope == platformScope) && c.scope == self)

/-- The non-platform ancestor partition of a bucket. -/
def ancestorNonPlatformCallablesOf (platformScope self : SScope)
    (cs : List CallableContainer) : List CallableContainer :=
  cs.filter (fun c => !(c.scope == platformScope) && !(c.scope == self))

/-- The *duplicate-function-implementation* error for one own container:
note the flattened range (`Range.create(start.line, start.character,
start.line, end.character)`). -/
def duplicateDiagOf (c : CallableContainer) : Diag :=
  .duplicateFunctionImplementation c.callable.name c.scope.name
    (Rng.create c.callable.nameRange.start.line c.callable.nameRange.start.character
      c.callable.nameRange.start.line c.callable.nameRange.endPos.character)
    c.callable.filePathAbsolute

/-- The *overrides-ancestor* info for one own container against the
shadowed ancestor occurrence. -/
def overridesDiagOf (shadowed : CallableContainer) (c : CallableContainer) : Diag :=
  .overridesAncestorFunction c.callable.name c.scope.name
    shadowed.callable.filePkgPath shadowed.scope.name
    c.callable.nameRange c.callable.filePathAbsolute

/-- The body of `diagnosticFindDuplicateFunctionDeclarations` for one
bucket `(lowerName, callableContainers)`: partition the containers,
then (1) for each own entry — skipping the name `init` — push an
*overrides-ancestor* info referring to the last ancestor occurrence
when both `own` and `ancestorNonPlatform` are non-empty, and (2) when
`own` has more than one entry, push a *duplicate-function-implementation*
error for each own entry. -/
def bucketDuplicateDiags (platformScope self : SScope) (lowerName : String)
    (callableContainers : List CallableContainer) : List Diag :=
  let ownCallables := ownCallablesOf platformScope self callableContainers
  let ancestorNonPlatformCallables :=
    ancestorNonPlatformCallablesOf platformScope self callableContainers
  let overrideDiags :=
    if ownCallables.length > 0 ∧ ancestorNonPlatformCallables.length > 0 then
      ownCallables.flatMap (fun container =>
        if lowerName ≠ "init" then
          -- `ancestorNonPlatformCallables[ancestorNonPlatformCallables.length - 1]`
          match ancestorNonPlatformCallables.getLast? with
          | some shadowedCallable => [overridesDiagOf shadowedCallable container]
          | none => []
        else
          [])
    else
      []
  let duplicateDiags :=
    if ownCallables.length > 1 then
      ownCallables.map duplicateDiagOf
    else
      []
  overrideDiags ++ duplicateDiags

/-- `Scope.diagnosticFindDuplicateFunctionDeclarations(map)`: run the
per-bucket body over every bucket, in key insertion order. -/
def diagnosticFindDuplicateFunctionDeclarations (platformScope self : SScope)
    (callableContainersByLowerName : List (String × List CallableContainer)) :
    List Diag :=
  callableContainersByLowerName.flatMap
    (fun kv => bucketDuplicateDiags platformScope self kv.1 kv.2)

/-! ## `Scope.diagnosticDetectFunctionCallsWithWrongParamCount` -/

/-- The parameter-count loop of the source: `maxParams` is incremented for
every parameter, `minParams` only when `param.isOptional === false`. -/
def minMaxParams (params : List Param) : Nat × Nat :=
  params.foldl
    (fun mm param =>
      (if param.isOptional = false then mm.1 + 1 else mm.1, mm.2 + 1))
    (0, 0)

/-- The per-call body of
`diagnosticDetectFunctionCallsWithWrongParamCount`: look the call's
lower-cased name up in the bucket map, use the **first** container of
the bucket, and emit *mismatch-argument-count* when the argument count
falls outside `[minParams, maxParams]`, with the bounds rendered as a
single number when the two coincide and as `"min-max"` otherwise. -/
def checkCallParamCount
    (callableContainersByLowerName : List (String × List CallableContainer))
    (filePathAbsolute : String) (expCall : FunctionCall) : List Diag :=
  match assocGet callableContainersByLowerName (strToLower expCall.name) with
  | some (knownCallableContainer :: _) =>
    let mm := minMaxParams knownCallableContainer.callable.params
    let minParams := mm.1
    let maxParams := mm.2
    let expCallArgCount := expCall.args.length
    if expCallArgCount > maxParams ∨ expCallArgCount < minParams then
      let minMaxParamsText :=
        if minParams = maxParams then toString maxParams
        else s!"{minParams}-{maxParams}"
      [.mismatchArgumentCount minMaxParamsText expCallArgCount
        expCall.nameRange filePathAbsolute]
    else
      []
  | _ => []

/-- `Scope.diagnosticDetectFunctionCallsWithWrongParamCount(file, map)`. -/
def diagnosticDetectFunctionCallsWithWrongParamCount (file : MFile)
    (callableContainersByLowerName : List (String × List CallableContainer)) :
    List Diag :=
  file.functionCalls.flatMap
    (checkCallParamCount callableContainersByLowerName file.pathAbsolute)

/-! ## `Scope.diagnosticDetectCallsToUnknownFunctions` -/

/-- Modelled from the spec: `util.rangeContains` (`util` is not among the
sources) — the position lies between the range's start and end,
inclusive, in (line, character) lexicographic order. -/
def posLe (a b : Pos) : Bool :=
  a.line < b.line || (a.line == b.line && a.character ≤ b.character)

/-- Modelled from the spec: see `posLe`. -/
def rangeContains (r : Rng) (p : Pos) : Bool :=
  posLe r.start p && posLe p r.endPos

/-- Modelled from the spec: `BrsFile.getFunctionScopeAtPosition(position)`
(`BrsFile` is not among the sources) — the function scope of the file
whose range contains the position. -/
def getFunctionScopeAtPosition (file : MFile) (position : Pos) :
    Option FunctionScope :=
  file.functionScopes.find? (fun fs => rangeContains fs.range position)

/-- Modelled from the spec: `FunctionScope.getVariableByName(name)`
(not among the sources) — the variable whose lower-cased name equals the
given (already lower-cased) name. -/
def getVariableByName (scope : FunctionScope) (name : String) : Option VarDecl :=
  scope.variableDeclarations.find? (fun v => strToLower v.name == name)

/-- The per-call body of `diagnosticDetectCallsToUnknownFunctions`: when
the function scope at the call's name-range start has no variable with
the call's lower-cased name (`!scope?.getVariableByName(lowerName)`),
and the bucket for that name yields no first callable, emit
*call-to-unknown-function* at the call's name range. -/
def checkCallUnknown
    (callablesByLowerName : List (String × List CallableContainer))
    (scopeName : String) (file : MFile) (expCall : FunctionCall) : List Diag :=
  let lowerName := strToLower expCall.name
  let scope := getFunctionScopeAtPosition file expCall.nameRange.start
  match scope.bind (fun s => getVariableByName s lowerName) with
  | some _ =>
    -- a variable with the same name exists: the call is assumed "known"
    []
  | none =>
    match assocGet callablesByLowerName lowerName with
    | some (_ :: _) => []
    | _ =>
      [.callToUnknownFunction expCall.name scopeName expCall.nameRange
        file.pathAbsolute]

/-- `Scope.diagnosticDetectCallsToUnknownFunctions(file, map)` (the scope
name feeds the diagnostic message). -/
def diagnosticDetectCallsToUnknownFunctions (scopeName : String) (file : MFile)
    (callablesByLowerName : List (String × List CallableContainer)) :
    List Diag :=
  file.functionCalls.flatMap
    (checkCallUnknown callablesByLowerName scopeName file)

/-! ## `Scope.diagnosticDetectShadowedLocalVars` and
`Scope.diagnosticDetectFunctionCollisions`

`platformCallableMap` (src/platformCallables.ts is not among the
sources) is the set of lower-cased built-in callable names, passed in as
a list. -/

def diagnosticDetectShadowedLocalVars (platformCallableMap : List String)
    (file : MFile)
    (callableContainerMap : List (String × List CallableContainer)) :
    List Diag :=
  file.functionScopes.flatMap (fun scope =>
    scope.variableDeclarations.flatMap (fun varDeclaration =>
      let lowerVarName := strToLower varDeclaration.name
      if varDeclaration.isFunctionType then
        if platformCallableMap.contains lowerVarName then
          [.localVarFunctionShadowsParentFunction "stdlib"
            varDeclaration.nameRange file.pathAbsolute]
        else if assocHas callableContainerMap lowerVarName then
          [.localVarFunctionShadowsParentFunction "scope"
            varDeclaration.nameRange file.pathAbsolute]
        else
          []
      else
        if assocHas callableContainerMap lowerVarName ∧
            ¬ platformCallableMap.contains lowerVarName then
          [.localVarShadowedByScopedFunction varDeclaration.nameRange
            file.pathAbsolute]
        else
          []))

def diagnosticDetectFunctionCollisions (platformCallableMap : List String)
    (file : MFile) : List Diag :=
  file.callables.flatMap (fun func =>
    if platformCallableMap.contains (strToLower func.name) then
      [.scopeFunctionShadowedByBuiltInFunction func.nameRange file.pathAbsolute]
    else
      [])

/-! ## `Scope.buildNamespaceLookup` (C7) -/

/-- The prefix loop of `buildNamespaceLookup`: starting from
`loopName = null`, each part extends `loopName` by `"." + part`,
producing the successive pairs `(loopName, part)`. -/
def prefixJoins : Option String → List String → List (String × String)
  | _, [] => []
  | none, part :: rest => (part, part) :: prefixJoins (some part) rest
  | some loopName, part :: rest =>
    let extended := loopName ++ "." ++ part
    (extended, part) :: prefixJoins (some extended) rest

/-- A fresh `NamespaceContainer` as created by the `??` initializer. -/
def newNamespaceContainer (fullName lastPartName : String) : NamespaceContainer :=
  { fullName := fullName
    lastPartName := lastPartName
    namespaces := []
    classStatements := []
    functionStatements := []
    statements := [] }

/-- The body of the statement loop of `buildNamespaceLookup`
(`ns.statements.push(...)` together with the class/function statement
registration). -/
def addStatementToContainer (ns : NamespaceContainer) (statement : Stmt) :
    NamespaceContainer :=
  let ns := { ns with statements := ns.statements ++ [statement] }
  match statement with
  | .classStmt nameText =>
    { ns with classStatements :=
        assocSet ns.classStatements (strToLower nameText) nameText }
  | .functionStmt nameText =>
    { ns with functionStatements :=
        assocSet ns.functionStatements (strToLower nameText) nameText }
  | .otherStmt _ => ns

/-- The per-namespace-statement step of the first loop of
`buildNamespaceLookup`: create any missing prefix entries, then push the
body statements onto the entry of the full name, registering class and
function statements by lower-cased name text. -/
def addNamespaceStatement (lookup : List (String × NamespaceContainer))
    (namespaceStmt : NamespaceStmt) : List (String × NamespaceContainer) :=
  let name := namespaceStmt.name
  let nameParts := jsSplit name '.'
  let lookup := (prefixJoins none nameParts).foldl
    (fun lk loopPair =>
      let lowerLoopName := strToLower loopPair.1
      if assocHas lk lowerLoopName then lk
      else lk ++ [(lowerLoopName, newNamespaceContainer loopPair.1 loopPair.2)])
    lookup
  assocUpdate lookup (strToLower name) (fun ns =>
    namespaceStmt.body.foldl addStatementToContainer ns)

/-- The parent key of a container with a dotted full name: drop the last
part and lower-case the rejoined prefix (the second loop of
`buildNamespaceLookup` computes exactly this); `none` when the full name
has a single part. -/
def parentKeyOf (fullName : String) : Option String :=
  let parts := jsSplit fullName '.'
  if parts.length > 1 then
    some (strToLower (String.intercalate "." parts.dropLast))
  else
    none

/-- The second loop of `buildNamespaceLookup`: for every entry whose full
name is dotted, register the entry under its parent's `namespaces` map,
keyed by the lower-cased last part.  The source stores an object
*reference*; the model stores the child's lookup key (see
`NamespaceContainer.namespaces`). -/
def associateChildNamespaces (lookup : List (String × NamespaceContainer)) :
    List (String × NamespaceContainer) :=
  (lookup.map Prod.fst).foldl
    (fun lk key =>
      match assocGet lk key with
      | some ns =>
        match parentKeyOf ns.fullName with
        | some parentKey =>
          assocUpdate lk parentKey (fun parent =>
            { parent with
              namespaces := assocSet parent.namespaces (strToLower ns.lastPartName) key })
        | none => lk
      | none => lk)
    lookup

/-- `Scope.buildNamespaceLookup()` as a function of the scope's namespace
statements. -/
def buildNamespaceLookup (namespaces : List NamespaceStmt) :
    List (String × NamespaceContainer) :=
  associateChildNamespaces (namespaces.foldl addNamespaceStatement [])

/-- `Scope.getNamespaceStatements()`. -/
def SScope.getNamespaceStatements (s : SScope) : List NamespaceStmt :=
  s.files.flatMap (fun kv => kv.2.namespaceStatements)

/-- The lazy `namespaceLookup` getter: rebuild and cache when the cache
is absent.  Returns the lookup together with the post-read scope state. -/
def SScope.namespaceLookupRead (s : SScope) :
    List (String × NamespaceContainer) × SScope :=
  match s.namespaceLookupCache with
  | some lookup => (lookup, s)
  | none =>
    let lookup := buildNamespaceLookup s.getNamespaceStatements
    match s with
    | .mk n f d v _ cl p => (lookup, .mk n f d v (some lookup) cl p)

/-- `Scope.buildClassLookup()`: lower-cased fully qualified class name ↦
class statement (keeping the class's name text). -/
def buildClassLookup (s : SScope) : List (String × String) :=
  s.files.foldl
    (fun lookup kv =>
      kv.2.classStatements.foldl
        (fun lookup cls => assocSet lookup (strToLower cls.fullName) cls.fullName)
        lookup)
    []

/-- The lazy `classLookup` getter, analogous to `namespaceLookupRead`. -/
def SScope.classLookupRead (s : SScope) : List (String × String) × SScope :=
  match s.classLookupCache with
  | some lookup => (lookup, s)
  | none =>
    let lookup := buildClassLookup s
    match s with
    | .mk n f d v nl _ p => (lookup, .mk n f d v nl (some lookup) p)

/-! ## `Scope.validate` -/

/-- The external collaborators `Scope.validate` calls into whose code is
not among the sources: the class validator
(`BsClassValidator.validate`, `src/validators/ClassValidator.ts`) as a
diagnostics function of the scope, and the built-in callable name set
(`src/platformCallables.ts`) as a list of lower-cased names. -/
structure Externals where
  classValidatorDiags : SScope → List Diag
  platformCallableMap : List String

/-- `Scope.validate(force = false)`:
1. return immediately when already validated and not forced;
2. validate the parent first when it is present and not validated;
3. clear the scope's diagnostics;
4. collect all callables, sort them by (file path, name), bucket them by
   lower-cased name;
5. duplicate/override diagnostics, class validation, and the four
   per-file checks;
6. finally `this.isValidated = true` (through the setter). -/
def SScope.validate : SScope → Externals → SScope → Bool → SScope
  | .mk n fs ds v nl cl parentOpt, ext, platformScope, force =>
    if v = true ∧ force = false then
      .mk n fs ds v nl cl parentOpt
    else
      let parentScope' :=
        match parentOpt with
        | some p =>
          some (if p.isValidatedGet = false then
                  SScope.validate p ext platformScope force
                else p)
        | none => none
      -- `this.diagnostics = []`
      let s1 : SScope := .mk n fs [] v nl cl parentScope'
      let callables := sortByLe callableLe s1.getAllCallables
      let callableContainerMap := getCallableContainersByLowerName callables
      let dupDiags :=
        diagnosticFindDuplicateFunctionDeclarations platformScope s1
          callableContainerMap
      let classDiags := ext.classValidatorDiags s1
      let perFileDiags := fs.flatMap (fun kv =>
        diagnosticDetectCallsToUnknownFunctions n kv.2 callableContainerMap ++
          diagnosticDetectFunctionCallsWithWrongParamCount kv.2
            callableContainerMap ++
          diagnosticDetectShadowedLocalVars ext.platformCallableMap kv.2
            callableContainerMap ++
          diagnosticDetectFunctionCollisions ext.platformCallableMap kv.2)
      let s2 : SScope :=
        .mk n fs (dupDiags ++ classDiags ++ perFileDiags) v nl cl parentScope'
      s2.setIsValidated true

/-- The scope and its whole transitive parent chain are validated. -/
def SScope.allValidated : SScope → Bool
  | .mk _ _ _ v _ _ none => v
  | .mk _ _ _ v _ _ (some p) => v && p.allValidated

/-- Hereditary consistency of the validation flags along the chain: at
every scope of the chain, being validated implies the whole parent
chain is validated.  (`Scope.validate` skips an already-validated
parent, so this is the precondition under which validating a scope
validates its entire ancestor chain.) -/
def SScope.validatedHereditary : SScope → Bool
  | .mk _ _ _ _ _ _ none => true
  | .mk _ _ _ v _ _ (some p) =>
    (!v || p.allValidated) && p.validatedHereditary

/-! ## Concrete fixtures used by witnesses and counterexamples -/

/-- An `MFile` with the given path and no contents. -/
def emptyFile (path : String) : MFile :=
  { pathAbsolute := path, pkgPath := path, callables := [],
    functionCalls := [], functionScopes := [], namespaceStatements := [],
    classStatements := [], fileDiagnostics := [] }

/-- A freshly constructed scope with no files. -/
def freshScope (name : String) : SScope :=
  .mk name [] [] false none none none

/-- A scope already holding `emptyFile "f.brs"`. -/
def scopeWithF : SScope :=
  .mk "scope1" [("f.brs", emptyFile "f.brs")] [] false none none none

/-- Externals with no class-validator diagnostics and no platform
callables. -/
def trivialExternals : Externals :=
  ⟨fun _ => [], []⟩

/-- Descriptor of the spec's scenario 4: a parent component importing
`util.brs`. -/
def parentDescriptor : MXmlFile :=
  .mk "ParentComponent" [⟨"util.brs", Rng.create 1 10 1 30⟩] none

/-- Descriptor of the spec's scenario 4: a child extending the parent and
importing `util.brs` as well. -/
def childDescriptor : MXmlFile :=
  .mk "ChildComponent" [⟨"util.brs", Rng.create 2 10 2 30⟩]
    (some parentDescriptor)

/-- A callable with the spec's scenario-6 signature `(a, b, c = 1)`. -/
def fooCallable : Callable :=
  { name := "foo"
    params := [⟨"a", false⟩, ⟨"b", false⟩, ⟨"c", true⟩]
    nameRange := Rng.create 0 9 0 12
    filePathAbsolute := "lib.brs"
    filePkgPath := "lib.brs" }

/-- `fooCallable` contributed by `freshScope "scope1"`. -/
def fooContainer : CallableContainer :=
  ⟨fooCallable, freshScope "scope1"⟩

/-- A bucket map holding only the `foo` bucket. -/
def fooMap : List (String × List CallableContainer) :=
  [("foo", [fooContainer])]

/-- A call to `foo` with a single argument. -/
def fooCall : FunctionCall :=
  { name := "foo", args := [()], nameRange := Rng.create 5 0 5 3 }

/-- Discriminator for *duplicate-function-implementation* diagnostics. -/
def Diag.isDuplicateImpl : Diag → Bool
  | .duplicateFunctionImplementation .. => true
  | _ => false

/-- Discriminator for *overrides-ancestor* diagnostics. -/
def Diag.isOverridesAncestor : Diag → Bool
  | .overridesAncestorFunction .. => true
  | _ => false

/-- A platform scope fixture. -/
def platformScope0 : SScope :=
  freshScope "platform"

/-- An ancestor (non-platform) scope fixture. -/
def ancestorScope0 : SScope :=
  freshScope "parentScope"

/-- A callable named `bar` declared in `a.brs`. -/
def barCallableA : Callable :=
  { name := "bar", params := [], nameRange := Rng.create 1 4 1 7
    filePathAbsolute := "a.brs", filePkgPath := "a.brs" }

/-- A callable named `bar` declared in `b.brs`. -/
def barCallableB : Callable :=
  { name := "bar", params := [], nameRange := Rng.create 3 4 3 7
    filePathAbsolute := "b.brs", filePkgPath := "b.brs" }

/-- Two own `bar` declarations in the same scope: a duplicate bucket. -/
def dupBucket : List CallableContainer :=
  [⟨barCallableA, freshScope "scope1"⟩, ⟨barCallableB, freshScope "scope1"⟩]

/-- `dupBucket` with the two own entries swapped. -/
def dupBucketSwapped : List CallableContainer :=
  [⟨barCallableB, freshScope "scope1"⟩, ⟨barCallableA, freshScope "scope1"⟩]

/-- An ancestor's container for `bar`. -/
def barAncestorContainer : CallableContainer :=
  ⟨barCallableB, ancestorScope0⟩

/-- A bucket where the scope's own `bar` shadows an ancestor's `bar`. -/
def overrideBucket : List CallableContainer :=
  [⟨barCallableA, freshScope "scope1"⟩, barAncestorContainer]

/-! # Theorems -/

/-- C10: In `XmlScope`'s parent resolution, the componentName-to-parentName
comparison is case-sensitive on file addition (`addParentIfMatch` attaches
only on exact equality, so a candidate differing from `parentName` in any
way — including only in case — is never attached) and case-insensitive on
file removal (`onProgramFileRemove` detaches whenever the lower-cased
names agree, provided both names are non-empty). -/
theorem xmlScope_parent_resolution_case_asymmetry :
    (∀ (st : XmlScopeState) (componentName : String),
      componentName ≠ st.parentName →
      (addParentIfMatch st (.xmlFile componentName)).parent = st.parent) ∧
    (∀ (st : XmlScopeState) (componentName : String),
      componentName ≠ "" → st.parentName ≠ "" →
      strToLower componentName = strToLower st.parentName →
      (onProgramFileRemove st (.xmlFile componentName)).parent = none) := by
  constructor
  · intro st componentName h
    simp only [addParentIfMatch]
    rw [if_neg]
    intro ⟨_, _, hEq⟩
    exact h hEq
  · intro st componentName h1 h2 h3
    simp only [onProgramFileRemove]
    rw [if_pos ⟨h1, h2, h3⟩]

/-- C10 witness: with `parentName = "Parent"`, a descriptor named
`"PARENT"` (same name up to case) is not attached on add, but its
removal detaches the currently attached parent. -/
theorem xmlScope_parent_resolution_case_asymmetry_witness :
    (addParentIfMatch ⟨"Parent", none, true⟩ (.xmlFile "PARENT")).parent = none ∧
    (onProgramFileRemove ⟨"Parent", some (.xmlFile "Parent"), true⟩
      (.xmlFile "PARENT")).parent = none := by
  refine ⟨xmlScope_parent_resolution_case_asymmetry.1 _ _ (by decide),
    xmlScope_parent_resolution_case_asymmetry.2 _ _ (by decide) (by decide)
      (by decide)⟩

/-- C9: every assignment to `isValidated` goes through the setter, which
deletes both cached lookups regardless of the value written; in
particular, after the final `this.isValidated = true` of `validate()`
(any run that does not take the already-validated early return) both
caches are absent, and the next read of either lookup rebuilds it from
the member files. -/
theorem isValidated_setter_purges_lookups :
    (∀ (s : SScope) (value : Bool),
      (s.setIsValidated value).namespaceLookupCache = none ∧
      (s.setIsValidated value).classLookupCache = none ∧
      (s.setIsValidated value).isValidatedGet = value) ∧
    (∀ (ext : Externals) (platformScope s : SScope) (force : Bool),
      (s.isValidatedGet = false ∨ force = true) →
      (s.validate ext platformScope force).namespaceLookupCache = none ∧
      (s.validate ext platformScope force).classLookupCache = none ∧
      (s.validate ext platformScope force).isValidatedGet = true) ∧
    (∀ (s : SScope) (value : Bool),
      ((s.setIsValidated value).namespaceLookupRead).1 =
        buildNamespaceLookup s.getNamespaceStatements ∧
      ((s.setIsValidated value).classLookupRead).1 = buildClassLookup s) := by
  refine ⟨fun s value => ?_, fun ext platformScope s force h => ?_,
    fun s value => ?_⟩
  · cases s
    exact ⟨rfl, rfl, rfl⟩
  · cases s with
    | mk n fs ds v nl cl parentOpt =>
      rcases h with h | h
      · have hv : v = false := h
        subst hv
        cases parentOpt <;> exact ⟨rfl, rfl, rfl⟩
      · subst h
        cases parentOpt <;> cases v <;> exact ⟨rfl, rfl, rfl⟩
  · cases s
    exact ⟨rfl, rfl⟩

/-- C9 witness: a scope carrying both caches and `isValidated = true`,
force-validated, ends with both caches purged; the setter likewise
purges them directly. -/
theorem isValidated_setter_purges_lookups_witness :
    ((SScope.mk "s" [] [] true (some []) (some []) none).validate
        ⟨fun _ => [], []⟩ (SScope.mk "platform" [] [] true none none none)
        true).namespaceLookupCache = none ∧
    ((SScope.mk "s" [] [] true (some []) (some []) none).setIsValidated
        false).classLookupCache = none := by
  exact ⟨(isValidated_setter_purges_lookups.2.1 ⟨fun _ => [], []⟩
      (SScope.mk "platform" [] [] true none none none)
      (SScope.mk "s" [] [] true (some []) (some []) none) true
      (Or.inr rfl)).1,
    (isValidated_setter_purges_lookups.1
      (SScope.mk "s" [] [] true (some []) (some []) none) false).2.1⟩

/-- C4 counterexample: the claim says adding a fresh matching file via
`addOrReplaceFile` emits `"invalidated"`.  It does not: on a scope that
does not yet hold the file, `addOrReplaceFile` changes the membership
(the file is stored) yet emits no event — `emit('invalidated')` is only
reached inside `removeFile` when the file was present. -/
theorem addOrReplaceFile_fresh_emits_nothing :
    (((freshScope "scope1").addOrReplaceFile
        (emptyFile "f.brs")).1.files.map Prod.fst = ["f.brs"]) ∧
    ((freshScope "scope1").addOrReplaceFile (emptyFile "f.brs")).2 = [] := by
  exact ⟨rfl, rfl⟩

/-- C4 (amended): a `Scope` emits `"invalidated"` exactly when a present
member file is removed — directly through `removeFile`, or through the
removal step of `addOrReplaceFile` when the file replaces an existing
member.  Adding a fresh file stores it and resets `isValidated` to
`false` but emits nothing, and removing an absent file emits nothing. -/
theorem scope_invalidated_emission :
    ∀ (s : SScope) (file : MFile),
      (assocHas s.files file.pathAbsolute = false →
        (s.addOrReplaceFile file).2 = [] ∧
        (s.addOrReplaceFile file).1.isValidatedGet = false ∧
        (s.removeFile file).2 = []) ∧
      (assocHas s.files file.pathAbsolute = true →
        (s.addOrReplaceFile file).2 = [ScopeEvent.invalidated] ∧
        (s.removeFile file).2 = [ScopeEvent.invalidated]) := by
  intro s file
  cases s with
  | mk n fs ds v nl cl parentOpt =>
    have hfiles : (SScope.mk n fs ds v nl cl parentOpt).files = fs := rfl
    constructor
    · intro h
      have hget : assocGet fs file.pathAbsolute = none := by
        simpa [assocHas, Option.isSome_iff_exists] using h
      refine ⟨?_, ?_, ?_⟩ <;>
        simp [SScope.addOrReplaceFile, SScope.removeFile, SScope.getFile,
          SScope.setIsValidated, SScope.files, SScope.isValidatedGet,
          SScope.withFiles, assocHas, hget]
    · intro h
      have hget : ∃ f, assocGet fs file.pathAbsolute = some f := by
        simpa [assocHas, Option.isSome_iff_exists] using h
      obtain ⟨f, hget⟩ := hget
      constructor <;>
        simp [SScope.addOrReplaceFile, SScope.removeFile, SScope.getFile,
          SScope.setIsValidated, SScope.files, SScope.withFiles, assocHas,
          hget]

/-- C4 witness for the amended claim: fresh add emits nothing, replacing
add emits one `"invalidated"`. -/
theorem scope_invalidated_emission_witness :
    ((freshScope "scope1").addOrReplaceFile (emptyFile "f.brs")).2 = [] ∧
    (scopeWithF.addOrReplaceFile (emptyFile "f.brs")).2 =
      [ScopeEvent.invalidated] := by
  exact ⟨((scope_invalidated_emission (freshScope "scope1")
        (emptyFile "f.brs")).1 rfl).1,
    ((scope_invalidated_emission scopeWithF (emptyFile "f.brs")).2 rfl).1⟩

/-! ### C8 helper lemmas -/

/-- Reading an association list extended on the right. -/
theorem assocGet_append_single {α : Type} (l : List (String × α)) (k2 : String)
    (v : α) (k : String) :
    assocGet (l ++ [(k2, v)]) k =
      (assocGet l k).or (if k2 == k then some v else none) := by
  induction l with
  | nil =>
    simp [assocGet, List.find?]
    split <;> simp_all
  | cons e rest ih =>
    by_cases he : e.1 == k
    · simp [assocGet, List.find?, he]
    · simp only [assocGet, List.cons_append, List.find?] at *
      rw [Bool.not_eq_true] at he
      simp only [he] at *
      exact ih

/-- The first-occurrence lookup built by
`diagnosticDetectDuplicateAncestorScriptImports` answers queries exactly
like `find?` on the ancestor import list. -/
theorem keepFirstLookup_get (k : String) :
    ∀ (l : List AncestorImport) (lk0 : List (String × AncestorImport)),
      assocGet
        (l.foldl
          (fun lk imp =>
            if assocHas lk imp.pkgPath then lk else lk ++ [(imp.pkgPath, imp)])
          lk0) k =
      (assocGet lk0 k).or (l.find? (fun a => a.pkgPath == k)) := by
  intro l
  induction l with
  | nil =>
    intro lk0
    cases h : assocGet lk0 k <;> simp [List.find?, h, Option.or]
  | cons imp rest ih =>
    intro lk0
    simp only [List.foldl_cons]
    by_cases hhas : assocHas lk0 imp.pkgPath
    · rw [if_pos hhas, ih lk0]
      by_cases hk : imp.pkgPath == k
      · -- the key is already present in `lk0`, so both sides read it
        have : ∃ w, assocGet lk0 k = some w := by
          have : assocGet lk0 imp.pkgPath ≠ none := by
            intro hnone
            simp [assocHas, hnone] at hhas
          rcases h : assocGet lk0 imp.pkgPath with _ | w
          · exact absurd h this
          · exact ⟨w, by rwa [eq_of_beq hk] at h⟩
        rcases this with ⟨w, hw⟩
        simp [hw, Option.or]
      · simp [List.find?, hk]
    · rw [if_neg hhas, ih (lk0 ++ [(imp.pkgPath, imp)])]
      rw [assocGet_append_single]
      cases h : assocGet lk0 k with
      | some w => simp [Option.or]
      | none =>
        simp only [Option.or, List.find?]
        by_cases hk : imp.pkgPath == k <;> simp [hk]

/-- The diagnostic-accumulating fold of
`diagnosticDetectDuplicateAncestorScriptImports` is a `filterMap`. -/
theorem dupImportFold_eq_filterMap (lookup : List (String × AncestorImport)) :
    ∀ (l : List ScriptImport) (init : List DupImportDiag),
      l.foldl
        (fun ds scriptImport =>
          match assocGet lookup scriptImport.pkgPath with
          | some ancestorScriptImport =>
            ds ++ [⟨scriptImport.filePathRange,
                    ancestorScriptImport.sourceComponentName⟩]
          | none => ds)
        init =
      init ++ l.filterMap (fun si =>
        match assocGet lookup si.pkgPath with
        | some a => some ⟨si.filePathRange, a.sourceComponentName⟩
        | none => none) := by
  intro l
  induction l with
  | nil => intro init; simp
  | cons si rest ih =>
    intro init
    simp only [List.foldl_cons, List.filterMap_cons]
    cases h : assocGet lookup si.pkgPath with
    | some a => rw [h] at *; simp [ih, List.append_assoc]
    | none => rw [h] at *; simp [ih]

/-- C8: `XmlScope.diagnosticDetectDuplicateAncestorScriptImports` emits,
for each of the descriptor's own script-tag imports whose `pkgPath`
appears among `getAncestorScriptTagImports()`, exactly one warning on
that import's `filePathRange`, naming the component of the **first**
matching occurrence in the ancestor import list — the nearest ancestor,
since the (spec-modelled) ancestor list is ordered parents-first; and on
the spec's concrete parent/child `util.brs` scenario the result is a
single warning on the child's import range naming the parent. -/
theorem xmlScope_duplicate_ancestor_imports :
    (∀ f : MXmlFile,
      diagnosticDetectDuplicateAncestorScriptImports f =
        f.scriptTagImports.filterMap (fun si =>
          match f.getAncestorScriptTagImports.find?
              (fun a => a.pkgPath == si.pkgPath) with
          | some a => some ⟨si.filePathRange, a.sourceComponentName⟩
          | none => none)) ∧
    diagnosticDetectDuplicateAncestorScriptImports childDescriptor =
      [⟨Rng.create 2 10 2 30, "ParentComponent"⟩] := by
  constructor
  · intro f
    cases f with
    | mk n imports parentOpt =>
      cases parentOpt with
      | none =>
        simp only [diagnosticDetectDuplicateAncestorScriptImports,
          MXmlFile.parent, MXmlFile.scriptTagImports,
          MXmlFile.getAncestorScriptTagImports]
        simp [List.filterMap_eq_nil_iff, List.find?]
      | some p =>
        simp only [diagnosticDetectDuplicateAncestorScriptImports,
          MXmlFile.parent, MXmlFile.scriptTagImports, Option.isSome_some,
          if_pos]
        rw [dupImportFold_eq_filterMap]
        rw [List.nil_append]
        apply List.filterMap_congr
        intro si _
        rw [keepFirstLookup_get]
        rfl
  · rfl

/-! ### C5 -/

/-- The min/max-parameter loop computes the count of non-optional
parameters and the total parameter count. -/
theorem minMaxParams_eq (params : List Param) :
    minMaxParams params =
      (params.countP (fun p => !p.isOptional), params.length) := by
  suffices h : ∀ (a b : Nat),
      params.foldl
        (fun mm param =>
          (if param.isOptional = false then mm.1 + 1 else mm.1, mm.2 + 1))
        (a, b) =
      (a + params.countP (fun p => !p.isOptional), b + params.length) by
    simpa [minMaxParams] using h 0 0
  induction params with
  | nil => intro a b; simp
  | cons p ps ih =>
    intro a b
    simp only [List.foldl_cons, List.countP_cons, List.length_cons, ih]
    by_cases hp : p.isOptional = false
    · simp [hp]
      omega
    · rw [Bool.not_eq_false] at hp
      simp [hp]
      omega

/-- C5: with `minParams` the number of non-optional parameters and
`maxParams` the total parameter count of the **first** callable of the
call's name bucket, `diagnosticDetectFunctionCallsWithWrongParamCount`
emits a *mismatch-argument-count* diagnostic exactly when the argument
count is strictly below `minParams` or strictly above `maxParams`, with
the bounds text a single number when the two coincide and
`"min-max"` otherwise. -/
theorem wrong_param_count_characterization
    (map : List (String × List CallableContainer)) (filePathAbsolute : String)
    (expCall : FunctionCall) (c : CallableContainer)
    (rest : List CallableContainer)
    (h : assocGet map (strToLower expCall.name) = some (c :: rest)) :
    checkCallParamCount map filePathAbsolute expCall =
      (if expCall.args.length < c.callable.params.countP (fun p => !p.isOptional)
          ∨ expCall.args.length > c.callable.params.length then
        [.mismatchArgumentCount
          (if c.callable.params.countP (fun p => !p.isOptional) =
              c.callable.params.length
           then toString c.callable.params.length
           else
             s!"{c.callable.params.countP (fun p => !p.isOptional)}-{c.callable.params.length}")
          expCall.args.length expCall.nameRange filePathAbsolute]
      else []) := by
  simp only [checkCallParamCount, h, minMaxParams_eq]
  exact if_congr or_comm rfl rfl

/-- C5 witness, which is also the spec's scenario 6: a function with
signature `(a, b, c = 1)` called with one argument yields a
*mismatch-argument-count* diagnostic with bounds text `"2-3"` and
actual count 1. -/
theorem wrong_param_count_witness :
    checkCallParamCount fooMap "main.brs" fooCall =
      [.mismatchArgumentCount "2-3" 1 (Rng.create 5 0 5 3) "main.brs"] := by
  rw [wrong_param_count_characterization fooMap "main.brs" fooCall
    fooContainer [] rfl]
  rfl

/-! ### C2 / C3 helper lemmas -/

/-- The override block of a bucket never contributes a
*duplicate-function-implementation* diagnostic. -/
theorem override_block_no_duplicate (lowerName : String)
    (anc own : List CallableContainer) :
    (own.flatMap (fun container =>
      if lowerName ≠ "init" then
        match anc.getLast? with
        | some shadowedCallable => [overridesDiagOf shadowedCallable container]
        | none => []
      else [])).filter Diag.isDuplicateImpl = [] := by
  rw [List.filter_eq_nil_iff]
  intro d hd
  rw [List.mem_flatMap] at hd
  obtain ⟨c, _, hd⟩ := hd
  split at hd
  · split at hd
    · rw [List.mem_singleton] at hd
      subst hd
      simp [overridesDiagOf, Diag.isDuplicateImpl]
    · simp at hd
  · simp at hd

/-- The duplicate block of a bucket never contributes an
*overrides-ancestor* diagnostic. -/
theorem duplicate_block_no_override (own : List CallableContainer) (P : Prop)
    [Decidable P] :
    ((if P then own.map duplicateDiagOf else []).filter
      Diag.isOverridesAncestor) = [] := by
  split
  · rw [List.filter_eq_nil_iff]
    intro d hd
    rw [List.mem_map] at hd
    obtain ⟨c, _, hd⟩ := hd
    subst hd
    simp [duplicateDiagOf, Diag.isOverridesAncestor]
  · rfl

/-- Filtering the duplicate block for duplicates keeps it whole. -/
theorem duplicate_block_filter_self (own : List CallableContainer) :
    (own.map duplicateDiagOf).filter Diag.isDuplicateImpl =
      own.map duplicateDiagOf := by
  rw [List.filter_eq_self]
  intro d hd
  rw [List.mem_map] at hd
  obtain ⟨c, _, hd⟩ := hd
  subst hd
  simp [duplicateDiagOf, Diag.isDuplicateImpl]

/-- A `flatMap` of singletons is a `map`. -/
theorem flatMap_singleton_eq_map {α β : Type} (f : α → β) (l : List α) :
    l.flatMap (fun x => [f x]) = l.map f := by
  induction l with
  | nil => rfl
  | cons x xs ih => simp [ih]

/-- C2: for every callable-name bucket, the
*duplicate-function-implementation* errors produced by
`diagnosticFindDuplicateFunctionDeclarations` are exactly one error per
own entry — the first included — precisely when the own partition has
more than one entry; consequently the set of flagged own entries is
insensitive to the order of the bucket's containers. -/
theorem duplicate_function_implementation_flags_every_own
    (platformScope self : SScope) (lowerName : String)
    (cs : List CallableContainer) :
    ((bucketDuplicateDiags platformScope self lowerName cs).filter
        Diag.isDuplicateImpl =
      if 1 < (ownCallablesOf platformScope self cs).length then
        (ownCallablesOf platformScope self cs).map duplicateDiagOf
      else []) ∧
    (∀ cs' : List CallableContainer, cs.Perm cs' →
      ((bucketDuplicateDiags platformScope self lowerName cs).filter
          Diag.isDuplicateImpl).Perm
        ((bucketDuplicateDiags platformScope self lowerName cs').filter
          Diag.isDuplicateImpl)) := by
  have hchar : ∀ ds : List CallableContainer,
      (bucketDuplicateDiags platformScope self lowerName ds).filter
          Diag.isDuplicateImpl =
        if 1 < (ownCallablesOf platformScope self ds).length then
          (ownCallablesOf platformScope self ds).map duplicateDiagOf
        else [] := by
    intro ds
    simp only [bucketDuplicateDiags]
    rw [List.filter_append]
    have hov : ∀ P : Prop, ∀ _ : Decidable P,
        ((if P then
            (ownCallablesOf platformScope self ds).flatMap (fun container =>
              if lowerName ≠ "init" then
                match (ancestorNonPlatformCallablesOf platformScope self
                    ds).getLast? with
                | some shadowedCallable =>
                  [overridesDiagOf shadowedCallable container]
                | none => []
              else [])
          else []).filter Diag.isDuplicateImpl) = [] := by
      intro P _
      split
      · exact override_block_no_duplicate lowerName _ _
      · rfl
    rw [hov _ _, List.nil_append]
    split
    · exact duplicate_block_filter_self _
    · rfl
  refine ⟨hchar cs, fun cs' hperm => ?_⟩
  rw [hchar cs, hchar cs']
  have hown : (ownCallablesOf platformScope self cs).Perm
      (ownCallablesOf platformScope self cs') := hperm.filter _
  rw [← hown.length_eq]
  split
  · exact hown.map _
  · exact List.Perm.refl _

/-- C2 witness: in a bucket with two own `bar` entries, every own entry —
the first included — is flagged, and the flagged multiset is preserved
under swapping the two own entries. -/
theorem duplicate_function_implementation_witness :
    ((bucketDuplicateDiags platformScope0 (freshScope "scope1") "bar"
        dupBucket).filter Diag.isDuplicateImpl =
      (ownCallablesOf platformScope0 (freshScope "scope1") dupBucket).map
        duplicateDiagOf) ∧
    ((bucketDuplicateDiags platformScope0 (freshScope "scope1") "bar"
        dupBucket).filter Diag.isDuplicateImpl).Perm
      ((bucketDuplicateDiags platformScope0 (freshScope "scope1") "bar"
        dupBucketSwapped).filter Diag.isDuplicateImpl) := by
  constructor
  · rw [(duplicate_function_implementation_flags_every_own platformScope0
      (freshScope "scope1") "bar" dupBucket).1]
    rw [if_pos (by decide)]
  · exact (duplicate_function_implementation_flags_every_own platformScope0
      (freshScope "scope1") "bar" dupBucket).2 dupBucketSwapped
      (List.Perm.swap _ _ _)

/-- C3: for every callable-name bucket whose own partition is non-empty
and whose non-platform ancestor partition is non-empty, when the
lower-cased name is not `"init"` an *overrides-ancestor* info is emitted
for each own entry, referencing the **last** ancestor occurrence of the
bucket; when the lower-cased name is `"init"`, no such info is
emitted. -/
theorem overrides_ancestor_characterization (platformScope self : SScope)
    (lowerName : String) (cs : List CallableContainer) :
    (∀ shadowed : CallableContainer,
      (ancestorNonPlatformCallablesOf platformScope self cs).getLast? =
        some shadowed →
      0 < (ownCallablesOf platformScope self cs).length →
      lowerName ≠ "init" →
      (bucketDuplicateDiags platformScope self lowerName cs).filter
          Diag.isOverridesAncestor =
        (ownCallablesOf platformScope self cs).map (overridesDiagOf shadowed)) ∧
    (lowerName = "init" →
      (bucketDuplicateDiags platformScope self lowerName cs).filter
          Diag.isOverridesAncestor = []) := by
  constructor
  · intro shadowed hlast hown hinit
    have hanc : 0 <
        (ancestorNonPlatformCallablesOf platformScope self cs).length := by
      cases hl : ancestorNonPlatformCallablesOf platformScope self cs with
      | nil => rw [hl] at hlast; simp [List.getLast?] at hlast
      | cons a as => simp [hl]
    simp only [bucketDuplicateDiags]
    rw [List.filter_append, duplicate_block_no_override, List.append_nil]
    rw [if_pos ⟨hown, hanc⟩, hlast]
    have hbody : (ownCallablesOf platformScope self cs).flatMap
        (fun container =>
          if lowerName ≠ "init" then [overridesDiagOf shadowed container]
          else []) =
        (ownCallablesOf platformScope self cs).map
          (overridesDiagOf shadowed) := by
      rw [← flatMap_singleton_eq_map (overridesDiagOf shadowed)]
      apply List.flatMap_congr
      intro c _
      rw [if_pos hinit]
    rw [hbody, List.filter_eq_self]
    intro d hd
    rw [List.mem_map] at hd
    obtain ⟨c, _, hd⟩ := hd
    subst hd
    simp [overridesDiagOf, Diag.isOverridesAncestor]
  · intro hinit
    subst hinit
    simp only [bucketDuplicateDiags]
    rw [List.filter_append, duplicate_block_no_override, List.append_nil]
    have hbody : ∀ P : Prop, ∀ _ : Decidable P,
        (if P then
          (ownCallablesOf platformScope self cs).flatMap (fun container =>
            if "init" ≠ "init" then
              match (ancestorNonPlatformCallablesOf platformScope self
                  cs).getLast? with
              | some shadowedCallable =>
                [overridesDiagOf shadowedCallable container]
              | none => []
            else [])
        else []) = ([] : List Diag) := by
      intro P _
      split
      · rw [List.flatMap_eq_nil_iff]
        intro c _
        rw [if_neg (by simp)]
      · rfl
    rw [hbody _ _]
    rfl

/-- C3 witness: an own `bar` shadowing an ancestor `bar` yields exactly
the info diagnostics of the characterization; and the same bucket under
the name `init` yields none. -/
theorem overrides_ancestor_witness :
    ((bucketDuplicateDiags platformScope0 (freshScope "scope1") "bar"
        overrideBucket).filter Diag.isOverridesAncestor =
      (ownCallablesOf platformScope0 (freshScope "scope1")
        overrideBucket).map (overridesDiagOf barAncestorContainer)) ∧
    ((bucketDuplicateDiags platformScope0 (freshScope "scope1") "init"
        overrideBucket).filter Diag.isOverridesAncestor = []) := by
  exact ⟨(overrides_ancestor_characterization platformScope0
      (freshScope "scope1") "bar" overrideBucket).1 barAncestorContainer rfl
      (by decide) (by decide),
    (overrides_ancestor_characterization platformScope0
      (freshScope "scope1") "init" overrideBucket).2 rfl⟩

/-! ### C6 -/

/-- C6: `diagnosticDetectCallsToUnknownFunctions` emits a
*call-to-unknown-function* diagnostic at a call's name range exactly
when the function scope at the call's name-range start has no variable
whose lower-cased name equals the call's lower-cased name **and** the
callable bucket for that name is empty (absent or `[]`); and whenever a
matching local variable exists, nothing is emitted regardless of the
bucket's contents. -/
theorem unknown_call_characterization
    (map : List (String × List CallableContainer)) (scopeName : String)
    (file : MFile) (expCall : FunctionCall) :
    (checkCallUnknown map scopeName file expCall =
        [.callToUnknownFunction expCall.name scopeName expCall.nameRange
          file.pathAbsolute] ↔
      ((∀ fs, getFunctionScopeAtPosition file expCall.nameRange.start = some fs →
          ∀ v ∈ fs.variableDeclarations,
            strToLower v.name ≠ strToLower expCall.name) ∧
        (assocGet map (strToLower expCall.name)).getD [] = [])) ∧
    ((∃ fs, getFunctionScopeAtPosition file expCall.nameRange.start = some fs ∧
        ∃ v ∈ fs.variableDeclarations,
          strToLower v.name = strToLower expCall.name) →
      checkCallUnknown map scopeName file expCall = []) := by
  constructor
  · cases hs : getFunctionScopeAtPosition file expCall.nameRange.start with
    | none =>
      cases hg : assocGet map (strToLower expCall.name) with
      | none =>
        refine iff_of_true (by simp [checkCallUnknown, hs, hg]) ⟨?_, by simp [hg]⟩
        intro fs hfs
        exact absurd hfs (by simp)
      | some bucket =>
        cases bucket with
        | nil =>
          refine iff_of_true (by simp [checkCallUnknown, hs, hg])
            ⟨?_, by simp [hg]⟩
          intro fs hfs
          exact absurd hfs (by simp)
        | cons c rest =>
          refine iff_of_false (by simp [checkCallUnknown, hs, hg]) ?_
          rintro ⟨-, habs⟩
          exact absurd habs (by simp)
    | some fs =>
      cases hv : getVariableByName fs (strToLower expCall.name) with
      | some v =>
        refine iff_of_false (by simp [checkCallUnknown, hs, hv]) ?_
        rintro ⟨h1, -⟩
        have hfind : List.find?
            (fun w => strToLower w.name == strToLower expCall.name)
            fs.variableDeclarations = some v := by
          simpa [getVariableByName] using hv
        have hbeq : (strToLower v.name == strToLower expCall.name) = true := by
          simpa using List.find?_some hfind
        exact absurd (eq_of_beq hbeq)
          (h1 fs rfl v (List.mem_of_find?_eq_some hfind))
      | none =>
        have hvar : ∀ v ∈ fs.variableDeclarations,
            strToLower v.name ≠ strToLower expCall.name := by
          simpa [getVariableByName] using hv
        cases hg : assocGet map (strToLower expCall.name) with
        | none =>
          refine iff_of_true (by simp [checkCallUnknown, hs, hv, hg]) ⟨?_, by simp [hg]⟩
          intro fs' hfs'
          cases hfs'
          exact hvar
        | some bucket =>
          cases bucket with
          | nil =>
            refine iff_of_true (by simp [checkCallUnknown, hs, hv, hg])
              ⟨?_, by simp [hg]⟩
            intro fs' hfs'
            cases hfs'
            exact hvar
          | cons c rest =>
            refine iff_of_false (by simp [checkCallUnknown, hs, hv, hg]) ?_
            rintro ⟨-, habs⟩
            exact absurd habs (by simp)
  · rintro ⟨fs, hfs, v, hvmem, hveq⟩
    cases hv : getVariableByName fs (strToLower expCall.name) with
    | some w => simp [checkCallUnknown, hfs, hv]
    | none =>
      have hvar : ∀ w ∈ fs.variableDeclarations,
          strToLower w.name ≠ strToLower expCall.name := by
        simpa [getVariableByName] using hv
      exact absurd hveq (hvar v hvmem)

/-- C6 witness: a call to `doThing` with no matching local variable and an
empty bucket map is flagged (the spec's scenario 3); the same call with
a local variable `dothing` in scope is not flagged even though the
bucket is still empty. -/
theorem unknown_call_witness :
    (checkCallUnknown [] "scope1"
        (emptyFile "main.brs") ⟨"doThing", [], Rng.create 1 4 1 11⟩ =
      [.callToUnknownFunction "doThing" "scope1" (Rng.create 1 4 1 11)
        "main.brs"]) ∧
    (checkCallUnknown [] "scope1"
        { emptyFile "main.brs" with
          functionScopes :=
            [{ range := Rng.create 0 0 9 0,
               variableDeclarations :=
                 [{ name := "doThing", isFunctionType := true,
                    nameRange := Rng.create 0 4 0 11 }] }] }
        ⟨"doThing", [], Rng.create 1 4 1 11⟩ = []) := by
  constructor
  · refine (unknown_call_characterization [] "scope1" (emptyFile "main.brs")
      ⟨"doThing", [], Rng.create 1 4 1 11⟩).1.mpr ⟨?_, rfl⟩
    intro fs hfs
    simp [getFunctionScopeAtPosition, emptyFile] at hfs
  · exact (unknown_call_characterization [] "scope1"
      { emptyFile "main.brs" with
        functionScopes :=
          [{ range := Rng.create 0 0 9 0,
             variableDeclarations :=
               [{ name := "doThing", isFunctionType := true,
                  nameRange := Rng.create 0 4 0 11 }] }] }
      ⟨"doThing", [], Rng.create 1 4 1 11⟩).2
      ⟨{ range := Rng.create 0 0 9 0,
         variableDeclarations :=
           [{ name := "doThing", isFunctionType := true,
              nameRange := Rng.create 0 4 0 11 }] }, rfl,
       { name := "doThing", isFunctionType := true,
         nameRange := Rng.create 0 4 0 11 }, by decide, by decide⟩

/-! ### C1 -/

/-- C1 counterexample: `Scope.getDiagnostics()` is a pure read — it merely
concatenates the stored scope diagnostics with the member files'
diagnostics and filters suppressed ones, never calling `validate()` nor
writing `isValidated`.  On a freshly constructed (hence unvalidated)
scope the call returns normally while the scope — unchanged by the call,
as the read-only type of the embedding records — still has
`isValidated = false`, refuting the claim that `getDiagnostics()`
implies `isValidated == true`. -/
theorem getDiagnostics_without_validation :
    SScope.getDiagnostics (fun _ => false) (freshScope "scope1") = [] ∧
    (freshScope "scope1").isValidatedGet = false := by
  exact ⟨rfl, rfl⟩

/-- `allValidated` through the head flag and the parent. -/
theorem allValidated_eq (s : SScope) :
    s.allValidated =
      (s.isValidatedGet &&
        (match s.parentScope with
         | some p => p.allValidated
         | none => true)) := by
  cases s with
  | mk n fs ds v nl cl parentOpt =>
    cases parentOpt with
    | none => show v = (v && true); simp
    | some p => rfl

/-- A validated scope with hereditarily consistent flags has a validated
ancestor chain. -/
theorem allValidated_of_hereditary_validated :
    ∀ s : SScope, s.validatedHereditary = true → s.isValidatedGet = true →
      s.allValidated = true := by
  intro s h hv
  cases s with
  | mk n fs ds v nl cl parentOpt =>
    cases parentOpt with
    | none => exact hv
    | some p =>
      have hv' : v = true := hv
      subst hv'
      simp only [SScope.validatedHereditary, Bool.and_eq_true] at h
      show (true && p.allValidated) = true
      simpa using h.1

/-- On any run that does not take the early return, `validate` ends
validated and re-points the parent at its (possibly freshly validated)
state. -/
theorem validate_parent_and_flag (n : String) (fs : List (String × MFile))
    (ds : List Diag) (v : Bool)
    (nl : Option (List (String × NamespaceContainer)))
    (cl : Option (List (String × String))) (parentOpt : Option SScope)
    (ext : Externals) (platformScope : SScope) (force : Bool)
    (h : ¬(v = true ∧ force = false)) :
    ((SScope.mk n fs ds v nl cl parentOpt).validate ext platformScope
        force).isValidatedGet = true ∧
    ((SScope.mk n fs ds v nl cl parentOpt).validate ext platformScope
        force).parentScope =
      (match parentOpt with
       | some p =>
         some (if p.isValidatedGet = false then
                 p.validate ext platformScope force
               else p)
       | none => none) := by
  cases v with
  | true =>
    cases force with
    | false => exact absurd ⟨rfl, rfl⟩ h
    | true => cases parentOpt <;> exact ⟨rfl, rfl⟩
  | false => cases force <;> cases parentOpt <;> exact ⟨rfl, rfl⟩

/-- C1 (amended): `getDiagnostics()` performs no validation (see
`getDiagnostics_without_validation`); a completed validation of the
scope and its whole ancestor chain is instead established by
`validate()`: provided the flags are hereditarily consistent beforehand
(every already-validated scope of the chain has a validated chain —
`validate` trusts and skips an already-validated parent), after
`S.validate(force)` returns, `S.isValidated` is true and every
transitive parent of `S` is validated. -/
theorem validate_validates_ancestor_chain :
    (s : SScope) → (ext : Externals) → (platformScope : SScope) →
      (force : Bool) → s.validatedHereditary = true →
      (s.validate ext platformScope force).allValidated = true
  | .mk n fs ds v nl cl none, ext, platformScope, force, h => by
    cases v <;> cases force <;> rfl
  | .mk n fs ds v nl cl (some p), ext, platformScope, force, h => by
    simp only [SScope.validatedHereditary, Bool.and_eq_true] at h
    obtain ⟨hvp, hpHered⟩ := h
    by_cases hcond : v = true ∧ force = false
    · obtain ⟨hv, hf⟩ := hcond
      subst hv; subst hf
      exact allValidated_of_hereditary_validated _
        (by simp only [SScope.validatedHereditary, Bool.and_eq_true]
            exact ⟨hvp, hpHered⟩) rfl
    · have hshape := validate_parent_and_flag n fs ds v nl cl (some p) ext
        platformScope force hcond
      rw [allValidated_eq, hshape.1, hshape.2]
      rw [Bool.true_and]
      change (if p.isValidatedGet = false then
        p.validate ext platformScope force else p).allValidated = true
      by_cases hq : p.isValidatedGet = false
      · rw [if_pos hq]
        exact validate_validates_ancestor_chain p ext platformScope force
          hpHered
      · rw [if_neg hq]
        exact allValidated_of_hereditary_validated p hpHered
          (by revert hq; cases p.isValidatedGet <;> simp)

/-- C1 witness for the amended claim: an unvalidated two-scope chain is
entirely validated by one `validate()` call on the child. -/
theorem validate_validates_ancestor_chain_witness :
    (SScope.mk "child" [] [] false none none
        (some (freshScope "parent"))).validatedHereditary = true ∧
    ((SScope.mk "child" [] [] false none none
        (some (freshScope "parent"))).validate trivialExternals
      platformScope0 false).allValidated = true := by
  exact ⟨rfl, validate_validates_ancestor_chain _ trivialExternals
    platformScope0 false rfl⟩

/-! ### C7 -/

/-- The statement loop of `buildNamespaceLookup` only touches the
`statements` / `classStatements` / `functionStatements` fields of a
container. -/
theorem foldl_addStatement_preserves (body : List Stmt) :
    ∀ c : NamespaceContainer,
      (body.foldl addStatementToContainer c).fullName = c.fullName ∧
      (body.foldl addStatementToContainer c).lastPartName = c.lastPartName ∧
      (body.foldl addStatementToContainer c).namespaces = c.namespaces := by
  induction body with
  | nil => intro c; exact ⟨rfl, rfl, rfl⟩
  | cons st rest ih =>
    intro c
    have hstep : (addStatementToContainer c st).fullName = c.fullName ∧
        (addStatementToContainer c st).lastPartName = c.lastPartName ∧
        (addStatementToContainer c st).namespaces = c.namespaces := by
      cases st <;> exact ⟨rfl, rfl, rfl⟩
    have hrest := ih (addStatementToContainer c st)
    exact ⟨hrest.1.trans hstep.1, hrest.2.1.trans hstep.2.1,
      hrest.2.2.trans hstep.2.2⟩

/-- The child-association loop on the three prefix entries of a
declaration `A.B.C`: the full-name entry may carry an arbitrary
statement payload `x`, and each dotted entry is registered in its
parent's `namespaces` map under its lower-cased last part, keyed back to
the child's lookup key. -/
theorem associate_abc (x : NamespaceContainer) (h1 : x.fullName = "A.B.C")
    (h2 : x.lastPartName = "C") :
    associateChildNamespaces
      [("a", ⟨"A", "A", [], [], [], []⟩),
       ("a.b", ⟨"A.B", "B", [], [], [], []⟩),
       ("a.b.c", x)] =
    [("a", ⟨"A", "A", [("b", "a.b")], [], [], []⟩),
     ("a.b", ⟨"A.B", "B", [("c", "a.b.c")], [], [], []⟩),
     ("a.b.c", x)] := by
  cases x with
  | mk fn lp nss cls fns sts =>
    dsimp only at h1 h2
    subst h1
    subst h2
    rfl

/-- C7: for a namespace declared as the dotted path `A.B.C` in a member
file (with an arbitrary body), the scope's `namespaceLookup` contains
exactly the lower-cased prefix keys `"a"`, `"a.b"`, `"a.b.c"`, and the
parent/child links round-trip in both directions: each parent entry's
`namespaces` map sends the child's lower-cased last part to the child's
lookup key, and each dotted entry's parent key (last part dropped,
lower-cased — the expression the association loop itself uses) is
exactly the key of its parent entry. -/
theorem namespace_lookup_abc (body : List Stmt) :
    (∀ (nm k : String) (f : MFile),
      f.namespaceStatements = [⟨"A.B.C", body⟩] →
      ((SScope.mk nm [(k, f)] [] false none none none).namespaceLookupRead).1 =
        buildNamespaceLookup [⟨"A.B.C", body⟩]) ∧
    (buildNamespaceLookup [⟨"A.B.C", body⟩]).map Prod.fst =
      ["a", "a.b", "a.b.c"] ∧
    (assocGet (buildNamespaceLookup [⟨"A.B.C", body⟩]) "a").map
        (fun c => (c.fullName, c.lastPartName, c.namespaces)) =
      some ("A", "A", [("b", "a.b")]) ∧
    (assocGet (buildNamespaceLookup [⟨"A.B.C", body⟩]) "a.b").map
        (fun c => (c.fullName, c.lastPartName, c.namespaces)) =
      some ("A.B", "B", [("c", "a.b.c")]) ∧
    (assocGet (buildNamespaceLookup [⟨"A.B.C", body⟩]) "a.b.c").map
        (fun c => (c.fullName, c.lastPartName, c.namespaces)) =
      some ("A.B.C", "C", []) ∧
    parentKeyOf "A" = none ∧
    parentKeyOf "A.B" = some "a" ∧
    parentKeyOf "A.B.C" = some "a.b" := by
  have hpres := foldl_addStatement_preserves body ⟨"A.B.C", "C", [], [], [], []⟩
  have h1 : (body.foldl addStatementToContainer
      ⟨"A.B.C", "C", [], [], [], []⟩).fullName = "A.B.C" := hpres.1
  have h2 : (body.foldl addStatementToContainer
      ⟨"A.B.C", "C", [], [], [], []⟩).lastPartName = "C" := hpres.2.1
  have h3 : (body.foldl addStatementToContainer
      ⟨"A.B.C", "C", [], [], [], []⟩).namespaces = [] := hpres.2.2
  have hstep1 : buildNamespaceLookup [⟨"A.B.C", body⟩] =
      associateChildNamespaces
        [("a", ⟨"A", "A", [], [], [], []⟩),
         ("a.b", ⟨"A.B", "B", [], [], [], []⟩),
         ("a.b.c", body.foldl addStatementToContainer
            ⟨"A.B.C", "C", [], [], [], []⟩)] := rfl
  have hL : buildNamespaceLookup [⟨"A.B.C", body⟩] =
      [("a", ⟨"A", "A", [("b", "a.b")], [], [], []⟩),
       ("a.b", ⟨"A.B", "B", [("c", "a.b.c")], [], [], []⟩),
       ("a.b.c", body.foldl addStatementToContainer
          ⟨"A.B.C", "C", [], [], [], []⟩)] :=
    hstep1.trans (associate_abc _ h1 h2)
  refine ⟨?_, ?_, ?_, ?_, ?_, rfl, rfl, rfl⟩
  · intro nm k f hf
    have hns : SScope.getNamespaceStatements
        (.mk nm [(k, f)] [] false none none none) = [⟨"A.B.C", body⟩] := by
      simp [SScope.getNamespaceStatements, SScope.files, hf]
    show buildNamespaceLookup (SScope.getNamespaceStatements
      (.mk nm [(k, f)] [] false none none none)) =
      buildNamespaceLookup [⟨"A.B.C", body⟩]
    rw [hns]
  · rw [hL]; rfl
  · rw [hL]; rfl
  · rw [hL]; rfl
  · rw [hL]
    show some ((body.foldl addStatementToContainer
        ⟨"A.B.C", "C", [], [], [], []⟩).fullName,
      (body.foldl addStatementToContainer
        ⟨"A.B.C", "C", [], [], [], []⟩).lastPartName,
      (body.foldl addStatementToContainer
        ⟨"A.B.C", "C", [], [], [], []⟩).namespaces) =
      some ("A.B.C", "C", [])
    rw [h1, h2, h3]

/-- C7 witness: the lookup of a scope holding one file declaring
`namespace A.B.C` (empty body) is rebuilt on read with exactly the three
prefix keys. -/
theorem namespace_lookup_abc_witness :
    ((SScope.mk "scope1"
        [("n.bs", { emptyFile "n.bs" with
                    namespaceStatements := [⟨"A.B.C", []⟩] })]
        [] false none none none).namespaceLookupRead).1 =
      buildNamespaceLookup [⟨"A.B.C", []⟩] := by
  exact (namespace_lookup_abc []).1 "scope1" "n.bs"
    { emptyFile "n.bs" with namespaceStatements := [⟨"A.B.C", []⟩] } rfl

end BrighterScript
